import Mathlib

/-
Verification of the coffee-sales aggregation pipeline (src/app.py).

The script loads one transaction table and, at module level, computes six
preparation blocks (seven aggregations): revenue by weekday, top product and
its monthly trend, volume by hour, product share percentages, volume by
weekday, and volume by month.  Each block guards on column presence and
stores either an aggregate table plus peak facts or a sentinel.

The embedding below models a dataframe as a list of rows together with
column-presence flags, models pandas NaN month values as Option, models the
float Money column as Rat, and models an uncaught Python exception as
Except.error carrying the exception text.
-/

namespace Coffee

/-- Fixed twelve-month vocabulary, app.py lines 42-43 (month_order). -/
def month_order : List String :=
  ["January", "February", "March", "April", "May", "June",
   "July", "August", "September", "October", "November", "December"]

/-- One raw transaction row of the input CSV.  The Date column is parsed but
never used by any aggregation, so it is omitted.  Money is the float revenue
column, modelled as Rat. -/
structure Row where
  weekday : String
  weekdaysort : Int
  hourOfDay : Int
  monthName : String
  coffeeName : String
  money : Rat
deriving Repr, DecidableEq

/-- The raw table: rows plus column-presence flags, modelling that the CSV
may lack any of the columns the blocks guard on. -/
structure Table where
  hasWeekday : Bool
  hasWeekdaySort : Bool
  hasHourOfDay : Bool
  hasMonthName : Bool
  hasCoffeeName : Bool
  hasMoney : Bool
  rows : List Row
deriving Repr, DecidableEq

/-- A row after schema normalization: Month_name has been converted to an
ordered Categorical, under which a value outside the twelve-month vocabulary
becomes NaN (modelled as none). -/
structure NormRow where
  weekday : String
  weekdaysort : Int
  hourOfDay : Int
  monthName : Option String
  coffeeName : String
  money : Rat
deriving Repr, DecidableEq

/-- The normalized table handed to the aggregation blocks. -/
structure NormTable where
  hasWeekday : Bool
  hasWeekdaySort : Bool
  hasHourOfDay : Bool
  hasMonthName : Bool
  hasCoffeeName : Bool
  hasMoney : Bool
  rows : List NormRow
deriving Repr, DecidableEq

/-- Categorical conversion of one Month_name cell, app.py line 47: a value in
the fixed category list is kept, any other value becomes NaN (none). -/
def normalizeMonth (m : String) : Option String :=
  if m ∈ month_order then some m else none

/-- Normalization of one row (only Month_name is changed). -/
def normRow (r : Row) : NormRow :=
  { weekday := r.weekday, weekdaysort := r.weekdaysort,
    hourOfDay := r.hourOfDay, monthName := normalizeMonth r.monthName,
    coffeeName := r.coffeeName, money := r.money }

/-- Pointwise normalization of the table contents. -/
def normTable (t : Table) : NormTable :=
  { hasWeekday := t.hasWeekday, hasWeekdaySort := t.hasWeekdaySort,
    hasHourOfDay := t.hasHourOfDay, hasMonthName := t.hasMonthName,
    hasCoffeeName := t.hasCoffeeName, hasMoney := t.hasMoney,
    rows := t.rows.map normRow }

/-- Result of the normalization step: the table plus whether the warning at
app.py line 49 fired. -/
structure NormOutcome where
  table : NormTable
  warned : Bool
deriving Repr, DecidableEq

/-- Schema normalization, app.py lines 45-49.  The statement inside the try
block first evaluates the subscript on the right hand side, so a table
without a Month_name column raises KeyError, which the except clause (which
only catches ValueError) does not stop.  When the column exists,
pd.Categorical with the fixed, duplicate-free month_order category list
never raises ValueError (out-of-vocabulary values are replaced by NaN, not
rejected), so the warning branch never fires and warned is always false. -/
def normalize (t : Table) : Except String NormOutcome :=
  if t.hasMonthName then
    Except.ok { table := normTable t, warned := false }
  else
    Except.error "KeyError: Month_name"

/-- Distinct values of a list in order of first occurrence (the key set a
pandas groupby or value_counts is built over).  Mathlib dedup keeps the last
occurrence of each value, so we dedup the reversal and reverse back. -/
def firstKeys {α : Type} [DecidableEq α] (l : List α) : List α :=
  l.reverse.dedup.reverse

/-- Embedding of the pandas Series.idxmax lookup combined with .loc: it
returns the first element of the list attaining the maximum of f, and none
exactly when the list is empty (where pandas raises ValueError). -/
def idxmaxBy {α β : Type} [LinearOrder β] (f : α → β) : List α → Option α
  | [] => none
  | a :: as =>
    match idxmaxBy f as with
    | none => some a
    | some m => if f a < f m then some m else some a

/-- Embedding of Series.max on a series of counts; the blocks only read it
after establishing the series is nonempty, so the default 0 is never
observed on an empty series. -/
def seriesMaxNat (l : List Nat) : Nat := l.foldr max 0

/-- Embedding of Series.max on the percentage series, same convention. -/
def seriesMaxRat (l : List Rat) : Rat := l.foldr max 0

/-- One output row of the weekday groupings: the pair grouping key plus the
aggregated measure column (Money for block 1, Ventas for block 5). -/
structure WEntry (μ : Type) where
  weekday : String
  weekdaysort : Int
  measure : μ
deriving Repr, DecidableEq

/-- One output row of the month groupings: Month_name plus the Ventas count. -/
structure MonthCount where
  month : String
  ventas : Nat
deriving Repr, DecidableEq

/-- Ordering used by sort_values on the Weekdaysort column. -/
def wLe {μ : Type} (a b : WEntry μ) : Prop := a.weekdaysort ≤ b.weekdaysort

instance {μ : Type} : DecidableRel (@wLe μ) :=
  fun a b => inferInstanceAs (Decidable (a.weekdaysort ≤ b.weekdaysort))

instance {μ : Type} : IsTotal (WEntry μ) wLe :=
  ⟨fun a b => le_total a.weekdaysort b.weekdaysort⟩

instance {μ : Type} : IsTrans (WEntry μ) wLe :=
  ⟨fun _ _ _ hab hbc => le_trans hab hbc⟩

/-- Character comparison by code point, underlying the lexicographic order
on group-key strings. -/
def charLt (c d : Char) : Bool := c.toNat < d.toNat

/-- Lexicographic comparison of character lists. -/
def strLtAux : List Char → List Char → Bool
  | [], [] => false
  | [], _ :: _ => true
  | _ :: _, [] => false
  | c :: cs, d :: ds =>
    if charLt c d then true else if charLt d c then false else strLtAux cs ds

/-- Lexicographic strict order on strings. -/
def strLt (a b : String) : Bool := strLtAux a.data b.data

/-- Lexicographic ordering on the (Weekday, Weekdaysort) group keys, the
order in which pandas groupby (sort=True) emits its groups.  The group
emission order only matters up to the stability of the subsequent
sort_values call, whose default quicksort pandas leaves unspecified for
equal Weekdaysort keys. -/
def kLe (a b : String × Int) : Prop :=
  strLt a.1 b.1 = true ∨ (a.1 = b.1 ∧ a.2 ≤ b.2)

instance : DecidableRel kLe :=
  fun a b =>
    inferInstanceAs (Decidable (strLt a.1 b.1 = true ∨ (a.1 = b.1 ∧ a.2 ≤ b.2)))

/-- Ascending-index ordering used by sort_index on the hour counts. -/
def hLe (a b : Int × Nat) : Prop := a.1 ≤ b.1

instance : DecidableRel hLe := fun a b => inferInstanceAs (Decidable (a.1 ≤ b.1))

instance : IsTotal (Int × Nat) hLe := ⟨fun a b => le_total a.1 b.1⟩

instance : IsTrans (Int × Nat) hLe := ⟨fun _ _ _ hab hbc => le_trans hab hbc⟩

/-- Descending-count ordering of value_counts output (stable under the
insertion sort, matching the first-encountered tie ranking of pandas). -/
def cLe (a b : String × Nat) : Prop := b.2 ≤ a.2

instance : DecidableRel cLe := fun a b => inferInstanceAs (Decidable (b.2 ≤ a.2))

instance : IsTotal (String × Nat) cLe := ⟨fun a b => le_total b.2 a.2⟩

instance : IsTrans (String × Nat) cLe := ⟨fun _ _ _ hab hbc => le_trans hbc hab⟩

/-- Grouping key of the weekday blocks, app.py lines 59 and 129. -/
def wkey (r : NormRow) : String × Int := (r.weekday, r.weekdaysort)

/-- Distinct (Weekday, Weekdaysort) pairs in groupby emission order. -/
def weekday_groups (rows : List NormRow) : List (String × Int) :=
  List.insertionSort kLe (firstKeys (rows.map wkey))

/-- Block 1 aggregate table, app.py lines 59-61: group by the pair
(Weekday, Weekdaysort), sum Money per group, then sort by Weekdaysort. -/
def sales_by_day_money (t : NormTable) : List (WEntry Rat) :=
  List.insertionSort wLe
    ((weekday_groups t.rows).map (fun k =>
      { weekday := k.1, weekdaysort := k.2,
        measure := ((t.rows.filter (fun r => wkey r = k)).map (fun r => r.money)).sum }))

/-- Block 1 peak fact, app.py line 63: the Weekday of the first row of the
sorted aggregate attaining the maximum Money; on an empty aggregate the
idxmax call raises ValueError. -/
def dia_pico_ingresos (t : NormTable) : Except String String :=
  match idxmaxBy (fun e => e.measure) (sales_by_day_money t) with
  | some e => Except.ok e.weekday
  | none => Except.error "ValueError: attempt to get argmax of an empty sequence"

/-- Block 5 aggregate table, app.py lines 129-130: same pair grouping with a
row count (size) per group instead of a Money sum. -/
def sales_volume_by_weekday (t : NormTable) : List (WEntry Nat) :=
  List.insertionSort wLe
    ((weekday_groups t.rows).map (fun k =>
      { weekday := k.1, weekdaysort := k.2,
        measure := (t.rows.filter (fun r => wkey r = k)).length }))

/-- Embedding of Series.value_counts: one entry per distinct value with its
occurrence count, ranked by descending count, ties keeping first-encounter
order.  The count of key k is written as a filter length. -/
def value_counts (xs : List String) : List (String × Nat) :=
  List.insertionSort cLe
    ((firstKeys xs).map (fun k => (k, (xs.filter (fun y => y = k)).length)))

/-- Block 2 top product, app.py line 75: value_counts on Coffee_Name followed
by idxmax, which raises ValueError on an empty series (zero rows). -/
def cafe_mas_vendido (t : NormTable) : Except String String :=
  match idxmaxBy (fun p => p.2) (value_counts (t.rows.map (fun r => r.coffeeName))) with
  | some p => Except.ok p.1
  | none => Except.error "ValueError: attempt to get argmax of an empty sequence"

/-- Month grouping with calendar completion, app.py lines 81-83 and 145-147:
groupby on the ordered Categorical Month_name emits every one of the twelve
categories (NaN keys are dropped), and the reindex over month_order followed
by fillna(0) and astype(int) leaves one integer count per canonical month in
calendar order. -/
def monthGroupSize (rows : List NormRow) : List MonthCount :=
  month_order.map (fun m =>
    { month := m, ventas := (rows.filter (fun r => r.monthName = some m)).length })

/-- Block 2 monthly trend table for a given top product, app.py lines 78-83:
the rows are filtered to the top product, then month-grouped. -/
def ventas_estrella_tbl (t : NormTable) (top : String) : List MonthCount :=
  monthGroupSize (t.rows.filter (fun r => r.coffeeName = top))

/-- Block 6 aggregate table, app.py lines 145-147: month grouping of the full
table. -/
def sales_volume_by_month (t : NormTable) : List MonthCount :=
  monthGroupSize t.rows

/-- Block 3 aggregate table, app.py line 98: value_counts on Hour_of_Day
followed by sort_index, which yields one (hour, count) entry per distinct
hour in ascending hour order. -/
def sales_by_hour_tbl (t : NormTable) : List (Int × Nat) :=
  List.insertionSort hLe
    ((firstKeys (t.rows.map (fun r => r.hourOfDay))).map (fun h =>
      (h, (t.rows.filter (fun r => r.hourOfDay = h)).length)))

/-- Block 4 aggregate table, app.py line 114: value_counts with
normalize=True times 100, that is count divided by total row count times
100, in the descending value_counts ranking. -/
def porcentajes_cafe (t : NormTable) : List (String × Rat) :=
  (value_counts (t.rows.map (fun r => r.coffeeName))).map (fun p =>
    (p.1, (p.2 : Rat) / (t.rows.length : Rat) * 100))

/-- Preparation block 1, app.py lines 54-63.  The sentinel values of the
script (None for the dataframe, the string N/A for the peak label) are
modelled as none.  The idxmax call on line 63 has no emptiness guard, so on
a zero-row table the block raises. -/
def block1 (t : NormTable) : Except String (Option (List (WEntry Rat)) × Option String) :=
  if t.hasWeekday && t.hasMoney && t.hasWeekdaySort then
    match dia_pico_ingresos t with
    | Except.ok w => Except.ok (some (sales_by_day_money t), some w)
    | Except.error e => Except.error e
  else
    Except.ok (none, none)

/-- Preparation block 2, app.py lines 68-87, producing (top product, trend
table, peak month, peak month count).  Line 75 calls idxmax with no
emptiness guard (raises on zero rows), and line 81 groups on Month_name
without checking that the column exists (raises KeyError when absent). -/
def block2 (t : NormTable) :
    Except String (Option String × Option (List MonthCount) × Option String × Nat) :=
  if t.hasCoffeeName then
    match idxmaxBy (fun p => p.2) (value_counts (t.rows.map (fun r => r.coffeeName))) with
    | none => Except.error "ValueError: attempt to get argmax of an empty sequence"
    | some p =>
      if t.hasMonthName then
        let tbl := ventas_estrella_tbl t p.1
        match idxmaxBy (fun e => e.ventas) tbl with
        | none => Except.error "ValueError: attempt to get argmax of an empty sequence"
        | some e =>
          Except.ok (some p.1, some tbl, some e.month,
            seriesMaxNat (tbl.map (fun q => q.ventas)))
      else
        Except.error "KeyError: Month_name"
  else
    Except.ok (none, none, none, 0)

/-- Preparation block 3, app.py lines 92-103, producing (hour table, peak
hour, sales at peak).  The peak lookup is guarded by an emptiness check, so
this block never raises. -/
def block3 (t : NormTable) : Option (List (Int × Nat)) × Option Int × Nat :=
  if t.hasHourOfDay then
    let tbl := sales_by_hour_tbl t
    match idxmaxBy (fun p => p.2) tbl with
    | none => (some tbl, none, 0)
    | some p => (some tbl, some p.1, seriesMaxNat (tbl.map (fun q => q.2)))
  else
    (none, none, 0)

/-- Preparation block 4, app.py lines 108-119, producing (share table, top
coffee, top share).  The peak lookup is guarded by an emptiness check. -/
def block4 (t : NormTable) : Option (List (String × Rat)) × Option String × Rat :=
  if t.hasCoffeeName then
    let tbl := porcentajes_cafe t
    match idxmaxBy (fun p => p.2) tbl with
    | none => (some tbl, none, 0)
    | some p => (some tbl, some p.1, seriesMaxRat (tbl.map (fun q => q.2)))
  else
    (none, none, 0)

/-- Preparation block 5, app.py lines 124-134, producing (volume table, peak
day).  The peak lookup is guarded by an emptiness check. -/
def block5 (t : NormTable) : Option (List (WEntry Nat)) × Option String :=
  if t.hasWeekday && t.hasWeekdaySort then
    let tbl := sales_volume_by_weekday t
    match idxmaxBy (fun e => e.measure) tbl with
    | none => (some tbl, none)
    | some e => (some tbl, some e.weekday)
  else
    (none, none)

/-- Preparation block 6, app.py lines 139-152, producing (month volume
table, peak month, peak volume).  The table always has twelve entries, so
the emptiness guard always passes when the column exists. -/
def block6 (t : NormTable) : Option (List MonthCount) × Option String × Nat :=
  if t.hasMonthName then
    let tbl := sales_volume_by_month t
    match idxmaxBy (fun e => e.ventas) tbl with
    | none => (some tbl, none, 0)
    | some e => (some tbl, some e.month, seriesMaxNat (tbl.map (fun q => q.ventas)))
  else
    (none, none, 0)

/-- All module-level variables the six preparation blocks leave for the
presentation sections.  A none models the None or N/A sentinel, numeric
fields default to 0 exactly as the script initializes them. -/
structure AppState where
  warned : Bool
  sales_by_day_money : Option (List (WEntry Rat))
  dia_pico_ingresos : Option String
  cafe_mas_vendido_ano : Option String
  ventas_cafe_estrella_mes : Option (List MonthCount)
  mes_pico_estrella : Option String
  max_ventas_estrella : Nat
  sales_by_hour : Option (List (Int × Nat))
  peak_hour : Option Int
  sales_at_peak : Nat
  porcentajes_cafe : Option (List (String × Rat))
  top_coffee_name : Option String
  top_coffee_percent : Rat
  sales_volume_by_weekday : Option (List (WEntry Nat))
  peak_sales_day : Option String
  sales_volume_by_month : Option (List MonthCount)
  peak_sales_month : Option String
  peak_sales_month_volume : Nat
deriving Repr, DecidableEq

/-- The whole module-level pipeline of app.py in source order: schema
normalization (lines 45-49) followed by the six preparation blocks.  An
uncaught Python exception anywhere aborts the script, modelled by
propagating Except.error. -/
def runApp (t : Table) : Except String AppState := do
  let norm ← normalize t
  let n := norm.table
  let b1 ← block1 n
  let b2 ← block2 n
  let b3 := block3 n
  let b4 := block4 n
  let b5 := block5 n
  let b6 := block6 n
  Except.ok
    { warned := norm.warned,
      sales_by_day_money := b1.1, dia_pico_ingresos := b1.2,
      cafe_mas_vendido_ano := b2.1, ventas_cafe_estrella_mes := b2.2.1,
      mes_pico_estrella := b2.2.2.1, max_ventas_estrella := b2.2.2.2,
      sales_by_hour := b3.1, peak_hour := b3.2.1, sales_at_peak := b3.2.2,
      porcentajes_cafe := b4.1, top_coffee_name := b4.2.1,
      top_coffee_percent := b4.2.2,
      sales_volume_by_weekday := b5.1, peak_sales_day := b5.2,
      sales_volume_by_month := b6.1, peak_sales_month := b6.2.1,
      peak_sales_month_volume := b6.2.2 }

/-- Two successive runs of the full pipeline on the same input, as in the
idempotence property of the specification. -/
def runTwice (t : Table) : Except String AppState × Except String AppState :=
  (runApp t, runApp t)

/-- Input with Coffee_Name present but no Month_name column. -/
def tableC1 : Table :=
  { hasWeekday := true, hasWeekdaySort := true, hasHourOfDay := true,
    hasMonthName := false, hasCoffeeName := true, hasMoney := true,
    rows := [{ weekday := "Monday", weekdaysort := 1, hourOfDay := 9,
               monthName := "March", coffeeName := "Latte", money := 3 }] }

/-- Input with every column present and zero rows. -/
def tableC2 : Table :=
  { hasWeekday := true, hasWeekdaySort := true, hasHourOfDay := true,
    hasMonthName := true, hasCoffeeName := true, hasMoney := true,
    rows := [] }

/-- Zero-row input with all columns, for the trend boundary case. -/
def tableC3cex : Table :=
  { hasWeekday := true, hasWeekdaySort := true, hasHourOfDay := true,
    hasMonthName := true, hasCoffeeName := true, hasMoney := true,
    rows := [] }

/-- One-row input on which the trend of the top product is defined. -/
def tableC3wit : Table :=
  { hasWeekday := true, hasWeekdaySort := true, hasHourOfDay := true,
    hasMonthName := true, hasCoffeeName := true, hasMoney := true,
    rows := [{ weekday := "Monday", weekdaysort := 1, hourOfDay := 9,
               monthName := "January", coffeeName := "Latte", money := 3 }] }

/-- Two weekdays with equal summed revenue and distinct sort keys. -/
def tableC4wit : Table :=
  { hasWeekday := true, hasWeekdaySort := true, hasHourOfDay := true,
    hasMonthName := true, hasCoffeeName := true, hasMoney := true,
    rows := [{ weekday := "Tuesday", weekdaysort := 2, hourOfDay := 9,
               monthName := "January", coffeeName := "Latte", money := 5 },
             { weekday := "Monday", weekdaysort := 1, hourOfDay := 10,
               monthName := "January", coffeeName := "Mocha", money := 5 }] }

/-- The three-row revenue scenario of the specification. -/
def tableC5wit : Table :=
  { hasWeekday := true, hasWeekdaySort := true, hasHourOfDay := true,
    hasMonthName := true, hasCoffeeName := true, hasMoney := true,
    rows := [{ weekday := "Monday", weekdaysort := 1, hourOfDay := 9,
               monthName := "January", coffeeName := "Latte", money := 10 },
             { weekday := "Monday", weekdaysort := 1, hourOfDay := 10,
               monthName := "February", coffeeName := "Latte", money := 5 },
             { weekday := "Tuesday", weekdaysort := 2, hourOfDay := 11,
               monthName := "Foobar", coffeeName := "Espresso", money := 7 }] }

/-- A row carrying a Month_name value outside the vocabulary. -/
def rowC6bad : Row :=
  { weekday := "Monday", weekdaysort := 1, hourOfDay := 9,
    monthName := "Foobar", coffeeName := "Latte", money := 3 }

/-- A second out-of-vocabulary row, used with a canonical companion row. -/
def rowC9bad : Row :=
  { weekday := "Tuesday", weekdaysort := 2, hourOfDay := 10,
    monthName := "Smarch", coffeeName := "Latte", money := 4 }

/-- Input whose Month_name column holds a value outside the vocabulary. -/
def tableC6cex : Table :=
  { hasWeekday := true, hasWeekdaySort := true, hasHourOfDay := true,
    hasMonthName := true, hasCoffeeName := true, hasMoney := true,
    rows := [{ weekday := "Monday", weekdaysort := 1, hourOfDay := 9,
               monthName := "Foobar", coffeeName := "Latte", money := 3 }] }

/-- Mixed input with one in-vocabulary and one out-of-vocabulary month. -/
def tableC6wit : Table :=
  { hasWeekday := true, hasWeekdaySort := true, hasHourOfDay := true,
    hasMonthName := true, hasCoffeeName := true, hasMoney := true,
    rows := [rowC6bad,
             { weekday := "Tuesday", weekdaysort := 2, hourOfDay := 10,
               monthName := "January", coffeeName := "Mocha", money := 4 }] }

/-- The Coffee_Name scenario Latte, Latte, Espresso of the specification. -/
def tableC7 : Table :=
  { hasWeekday := true, hasWeekdaySort := true, hasHourOfDay := true,
    hasMonthName := true, hasCoffeeName := true, hasMoney := true,
    rows := [{ weekday := "Monday", weekdaysort := 1, hourOfDay := 9,
               monthName := "January", coffeeName := "Latte", money := 3 },
             { weekday := "Monday", weekdaysort := 1, hourOfDay := 10,
               monthName := "January", coffeeName := "Latte", money := 3 },
             { weekday := "Tuesday", weekdaysort := 2, hourOfDay := 11,
               monthName := "February", coffeeName := "Espresso", money := 2 }] }

/-- Input holding a row whose month is outside the vocabulary next to a row
with a canonical month. -/
def tableC9wit : Table :=
  { hasWeekday := true, hasWeekdaySort := true, hasHourOfDay := true,
    hasMonthName := true, hasCoffeeName := true, hasMoney := true,
    rows := [{ weekday := "Monday", weekdaysort := 1, hourOfDay := 9,
               monthName := "January", coffeeName := "Latte", money := 3 },
             rowC9bad] }

/-- Input violating the weekday invariant: the same name under two distinct
sort keys. -/
def tableC10bad : Table :=
  { hasWeekday := true, hasWeekdaySort := true, hasHourOfDay := true,
    hasMonthName := true, hasCoffeeName := true, hasMoney := true,
    rows := [{ weekday := "Monday", weekdaysort := 1, hourOfDay := 9,
               monthName := "January", coffeeName := "Latte", money := 3 },
             { weekday := "Monday", weekdaysort := 2, hourOfDay := 10,
               monthName := "January", coffeeName := "Mocha", money := 4 }] }

/-- Input satisfying the weekday invariant. -/
def tableC10wit : Table :=
  { hasWeekday := true, hasWeekdaySort := true, hasHourOfDay := true,
    hasMonthName := true, hasCoffeeName := true, hasMoney := true,
    rows := [{ weekday := "Monday", weekdaysort := 1, hourOfDay := 9,
               monthName := "January", coffeeName := "Latte", money := 3 },
             { weekday := "Tuesday", weekdaysort := 2, hourOfDay := 10,
               monthName := "January", coffeeName := "Mocha", money := 4 },
             { weekday := "Monday", weekdaysort := 1, hourOfDay := 11,
               monthName := "March", coffeeName := "Latte", money := 2 }] }

theorem idxmaxBy_cons_none {α β : Type} [LinearOrder β] (f : α → β) (a : α)
    {as : List α} (h : idxmaxBy f as = none) :
    idxmaxBy f (a :: as) = some a := by
  simp [idxmaxBy, h]

theorem idxmaxBy_cons_some {α β : Type} [LinearOrder β] (f : α → β) (a : α)
    {as : List α} {m0 : α} (h : idxmaxBy f as = some m0) :
    idxmaxBy f (a :: as) = if f a < f m0 then some m0 else some a := by
  simp [idxmaxBy, h]

theorem idxmaxBy_eq_none_iff {α β : Type} [LinearOrder β] (f : α → β) (l : List α) :
    idxmaxBy f l = none ↔ l = [] := by
  cases l with
  | nil => simp [idxmaxBy]
  | cons a as =>
    simp only [idxmaxBy]
    cases h : idxmaxBy f as with
    | none => simp
    | some m => by_cases hc : f a < f m <;> simp [hc]

theorem idxmaxBy_mem {α β : Type} [LinearOrder β] (f : α → β) :
    ∀ (l : List α) (m : α), idxmaxBy f l = some m → m ∈ l := by
  intro l
  induction l with
  | nil => intro m h; simp [idxmaxBy] at h
  | cons a as ih =>
    intro m h
    cases hh : idxmaxBy f as with
    | none =>
      rw [idxmaxBy_cons_none f a hh] at h
      cases h
      exact List.mem_cons_self _ _
    | some m0 =>
      rw [idxmaxBy_cons_some f a hh] at h
      by_cases hc : f a < f m0
      · rw [if_pos hc] at h
        cases h
        exact List.mem_cons_of_mem _ (ih _ hh)
      · rw [if_neg hc] at h
        cases h
        exact List.mem_cons_self _ _

theorem idxmaxBy_le {α β : Type} [LinearOrder β] (f : α → β) :
    ∀ (l : List α) (m : α), idxmaxBy f l = some m → ∀ x ∈ l, f x ≤ f m := by
  intro l
  induction l with
  | nil => intro m h; simp [idxmaxBy] at h
  | cons a as ih =>
    intro m h x hx
    cases hh : idxmaxBy f as with
    | none =>
      rw [idxmaxBy_cons_none f a hh] at h
      cases h
      rcases List.mem_cons.mp hx with rfl | hxs
      · exact le_refl _
      · rw [(idxmaxBy_eq_none_iff f as).mp hh] at hxs
        cases hxs
    | some m0 =>
      rw [idxmaxBy_cons_some f a hh] at h
      by_cases hc : f a < f m0
      · rw [if_pos hc] at h
        cases h
        rcases List.mem_cons.mp hx with rfl | hxs
        · exact le_of_lt hc
        · exact ih _ hh x hxs
      · rw [if_neg hc] at h
        cases h
        rcases List.mem_cons.mp hx with rfl | hxs
        · exact le_refl _
        · exact le_trans (ih _ hh x hxs) (not_lt.mp hc)

theorem idxmaxBy_first {α β γ : Type} [LinearOrder β] [LinearOrder γ]
    (f : α → β) (g : α → γ) :
    ∀ (l : List α), l.Pairwise (fun a b => g a ≤ g b) →
      ∀ m, idxmaxBy f l = some m → ∀ x ∈ l, f m ≤ f x → g m ≤ g x := by
  intro l
  induction l with
  | nil => intro _ m h; simp [idxmaxBy] at h
  | cons a as ih =>
    intro hp m h x hx hfx
    rcases List.pairwise_cons.mp hp with ⟨ha, has⟩
    cases hh : idxmaxBy f as with
    | none =>
      rw [idxmaxBy_cons_none f a hh] at h
      cases h
      rcases List.mem_cons.mp hx with rfl | hxs
      · exact le_refl _
      · exact ha x hxs
    | some m0 =>
      rw [idxmaxBy_cons_some f a hh] at h
      by_cases hc : f a < f m0
      · rw [if_pos hc] at h
        cases h
        rcases List.mem_cons.mp hx with rfl | hxs
        · exact absurd hfx (not_le.mpr hc)
        · exact ih has _ hh x hxs hfx
      · rw [if_neg hc] at h
        cases h
        rcases List.mem_cons.mp hx with rfl | hxs
        · exact le_refl _
        · exact ha x hxs

theorem sum_map_add {κ M : Type} [AddCommMonoid M] (f g : κ → M) (l : List κ) :
    (l.map (fun k => f k + g k)).sum = (l.map f).sum + (l.map g).sum := by
  induction l with
  | nil => simp
  | cons a l ih =>
    simp only [List.map_cons, List.sum_cons, ih]
    abel

theorem sum_ite_eq_of_mem {κ M : Type} [DecidableEq κ] [AddCommMonoid M]
    (l : List κ) (a : κ) (c : M) (hnd : l.Nodup) (ha : a ∈ l) :
    (l.map (fun k => if a = k then c else 0)).sum = c := by
  induction l with
  | nil => cases ha
  | cons x xs ih =>
    rcases List.nodup_cons.mp hnd with ⟨hx, hxs⟩
    rcases List.mem_cons.mp ha with rfl | ha2
    · have hz : (xs.map (fun k => if a = k then c else 0)).sum = 0 := by
        apply List.sum_eq_zero
        intro y hy
        rcases List.mem_map.mp hy with ⟨k, hk, rfl⟩
        rw [if_neg]
        intro e
        exact hx (e ▸ hk)
      simp only [List.map_cons, List.sum_cons]
      simp [hz]
    · have hax : ¬(a = x) := fun e => hx (e ▸ ha2)
      simp only [List.map_cons, List.sum_cons, if_neg hax]
      rw [ih hxs ha2, zero_add]

theorem sum_groups {ρ κ M : Type} [DecidableEq κ] [AddCommMonoid M]
    (key : ρ → κ) (g : ρ → M) :
    ∀ (rows : List ρ) (keys : List κ), keys.Nodup →
      (∀ r ∈ rows, key r ∈ keys) →
      (keys.map (fun k => ((rows.filter (fun r => key r = k)).map g).sum)).sum
        = (rows.map g).sum := by
  intro rows
  induction rows with
  | nil => intro keys _ _; simp
  | cons r rs ih =>
    intro keys hnd hmem
    have hstep : (fun k => (((r :: rs).filter (fun x => key x = k)).map g).sum)
        = (fun k => (if key r = k then g r else 0)
            + ((rs.filter (fun x => key x = k)).map g).sum) := by
      funext k
      by_cases h : key r = k
      · simp [List.filter_cons, h]
      · simp [List.filter_cons, h]
    rw [hstep, sum_map_add,
      sum_ite_eq_of_mem keys (key r) (g r) hnd (hmem r (List.mem_cons_self r rs)),
      ih keys hnd (fun x hx => hmem x (List.mem_cons_of_mem _ hx))]
    simp

theorem sum_map_one {ρ : Type} (l : List ρ) :
    (l.map (fun _ => (1 : Nat))).sum = l.length := by
  induction l with
  | nil => rfl
  | cons a l ih => simp [ih, Nat.add_comm]

theorem sum_groups_length {ρ κ : Type} [DecidableEq κ] (key : ρ → κ)
    (rows : List ρ) (keys : List κ) (hnd : keys.Nodup)
    (hmem : ∀ r ∈ rows, key r ∈ keys) :
    (keys.map (fun k => (rows.filter (fun r => key r = k)).length)).sum
      = rows.length := by
  have h1 : (fun k => (rows.filter (fun r => key r = k)).length)
      = (fun k => ((rows.filter (fun r => key r = k)).map (fun _ => (1 : Nat))).sum) := by
    funext k
    rw [sum_map_one]
  rw [h1, sum_groups key (fun _ => (1 : Nat)) rows keys hnd hmem, sum_map_one]

theorem mem_firstKeys {α : Type} [DecidableEq α] (a : α) (l : List α) :
    a ∈ firstKeys l ↔ a ∈ l := by
  simp [firstKeys]

theorem nodup_firstKeys {α : Type} [DecidableEq α] (l : List α) :
    (firstKeys l).Nodup := by
  simp only [firstKeys, List.nodup_reverse]
  exact List.nodup_dedup _

theorem firstKeys_eq_nil_iff {α : Type} [DecidableEq α] (l : List α) :
    firstKeys l = [] ↔ l = [] := by
  constructor
  · intro h
    cases l with
    | nil => rfl
    | cons a as =>
      have : a ∈ firstKeys (a :: as) := (mem_firstKeys a _).mpr (List.mem_cons_self a as)
      rw [h] at this
      cases this
  · intro h
    rw [h]
    rfl

theorem sum_map_insertionSort {α M : Type} [AddCommMonoid M]
    (r : α → α → Prop) [DecidableRel r] (f : α → M) (l : List α) :
    ((List.insertionSort r l).map f).sum = (l.map f).sum :=
  List.Perm.sum_eq ((List.perm_insertionSort r l).map f)

theorem month_order_nodup : month_order.Nodup := by decide

/-- Every non-NaN Month_name value of a normalized table lies in the fixed
vocabulary: the Categorical conversion replaced everything else by NaN. -/
theorem normTable_month_valid (t : Table) :
    ∀ r ∈ (normTable t).rows, ∀ m, r.monthName = some m → m ∈ month_order := by
  intro r hr m hm
  rcases List.mem_map.mp hr with ⟨r0, _, rfl⟩
  by_cases h : r0.monthName ∈ month_order
  · simp only [normRow, normalizeMonth, if_pos h] at hm
    cases hm
    exact h
  · simp [normRow, normalizeMonth, if_neg h] at hm

/-- The Ventas column of a month grouping, as a bare list of counts. -/
theorem monthGroupSize_map_ventas (rows : List NormRow) :
    (monthGroupSize rows).map (fun e => e.ventas)
      = month_order.map (fun m => (rows.filter (fun r => r.monthName = some m)).length) := by
  simp [monthGroupSize, List.map_map, Function.comp]

theorem month_counts_sum (rows : List NormRow)
    (hv : ∀ r ∈ rows, ∀ m, r.monthName = some m → m ∈ month_order) :
    (month_order.map (fun m => (rows.filter (fun r => r.monthName = some m)).length)).sum
      = (rows.filter (fun r => r.monthName.isSome)).length := by
  induction rows with
  | nil =>
    apply List.sum_eq_zero
    intro x hx
    rcases List.mem_map.mp hx with ⟨m, _, rfl⟩
    simp
  | cons r rs ih =>
    have hv2 : ∀ x ∈ rs, ∀ m, x.monthName = some m → m ∈ month_order :=
      fun x hx => hv x (List.mem_cons_of_mem _ hx)
    have hvr := hv r (List.mem_cons_self _ _)
    have hstep : (fun m => ((r :: rs).filter (fun x => x.monthName = some m)).length)
        = (fun m => (if r.monthName = some m then 1 else 0)
            + (rs.filter (fun x => x.monthName = some m)).length) := by
      funext m
      by_cases h : r.monthName = some m
      · simp [List.filter_cons, h, Nat.add_comm]
      · simp [List.filter_cons, h]
    rw [hstep, sum_map_add, ih hv2]
    cases hrm : r.monthName with
    | none =>
      have h0 : (month_order.map
          (fun m => if (none : Option String) = some m then (1 : Nat) else 0)).sum = 0 := by
        apply List.sum_eq_zero
        intro x hx
        rcases List.mem_map.mp hx with ⟨m, _, rfl⟩
        simp
      rw [h0]
      simp [List.filter_cons, hrm]
    | some m0 =>
      have hmem := hvr m0 hrm
      have h1 : (month_order.map
          (fun m => if some m0 = some m then (1 : Nat) else 0)).sum = 1 := by
        have hfun : (fun m => if some m0 = some m then (1 : Nat) else 0)
            = (fun m => if m0 = m then (1 : Nat) else 0) := by
          funext m
          by_cases h : m0 = m <;> simp [h]
        rw [hfun]
        exact sum_ite_eq_of_mem month_order m0 1 month_order_nodup hmem
      rw [h1]
      simp [List.filter_cons, hrm, Nat.add_comm]

/-- Conservation for the month volume table: the twelve counts add up to the
number of rows whose Month_name is not NaN. -/
theorem sales_volume_by_month_sum (t : Table) :
    ((sales_volume_by_month (normTable t)).map (fun e => e.ventas)).sum
      = ((normTable t).rows.filter (fun r => r.monthName.isSome)).length := by
  rw [sales_volume_by_month, monthGroupSize_map_ventas]
  exact month_counts_sum _ (normTable_month_valid t)

/-- Conservation for the trend table of any product: the twelve counts add
up to the number of rows of that product whose Month_name is not NaN. -/
theorem ventas_estrella_tbl_sum (t : Table) (top : String) :
    ((ventas_estrella_tbl (normTable t) top).map (fun e => e.ventas)).sum
      = ((normTable t).rows.filter
          (fun r => r.monthName.isSome && r.coffeeName = top)).length := by
  rw [ventas_estrella_tbl, monthGroupSize_map_ventas, month_counts_sum _
    (fun r hr => normTable_month_valid t r (List.mem_of_mem_filter hr))]
  rw [List.filter_filter]

/-- Conservation for block 1: grouping by the weekday pair and summing Money
neither drops nor duplicates revenue. -/
theorem sales_by_day_money_sum (t : NormTable) :
    ((sales_by_day_money t).map (fun e => e.measure)).sum
      = (t.rows.map (fun r => r.money)).sum := by
  rw [sales_by_day_money, sum_map_insertionSort, List.map_map, weekday_groups,
    sum_map_insertionSort]
  exact sum_groups wkey (fun r => r.money) t.rows (firstKeys (t.rows.map wkey))
    (nodup_firstKeys _)
    (fun r hr => (mem_firstKeys _ _).mpr (List.mem_map_of_mem wkey hr))

/-- Conservation for block 5: the per-weekday transaction counts add up to
the total number of rows. -/
theorem sales_volume_by_weekday_sum (t : NormTable) :
    ((sales_volume_by_weekday t).map (fun e => e.measure)).sum = t.rows.length := by
  rw [sales_volume_by_weekday, sum_map_insertionSort, List.map_map, weekday_groups,
    sum_map_insertionSort]
  exact sum_groups_length wkey t.rows (firstKeys (t.rows.map wkey))
    (nodup_firstKeys _)
    (fun r hr => (mem_firstKeys _ _).mpr (List.mem_map_of_mem wkey hr))

/-- Conservation for block 3: the per-hour counts add up to the total number
of rows. -/
theorem sales_by_hour_sum (t : NormTable) :
    ((sales_by_hour_tbl t).map (fun p => p.2)).sum = t.rows.length := by
  rw [sales_by_hour_tbl, sum_map_insertionSort, List.map_map]
  exact sum_groups_length (fun r => r.hourOfDay) t.rows
    (firstKeys (t.rows.map (fun r => r.hourOfDay)))
    (nodup_firstKeys _)
    (fun r hr => (mem_firstKeys _ _).mpr (List.mem_map_of_mem _ hr))

/-- Conservation for value_counts: the counts add up to the length of the
counted series. -/
theorem value_counts_sum (xs : List String) :
    ((value_counts xs).map (fun p => p.2)).sum = xs.length := by
  rw [value_counts, sum_map_insertionSort, List.map_map]
  exact sum_groups_length (fun y => y) xs (firstKeys xs)
    (nodup_firstKeys _)
    (fun r hr => (mem_firstKeys _ _).mpr hr)

theorem sum_map_div_mul (l : List Rat) (d : Rat) :
    (l.map (fun c => c / d * 100)).sum = l.sum / d * 100 := by
  induction l with
  | nil => simp
  | cons a l ih =>
    simp only [List.map_cons, List.sum_cons, ih]
    ring

theorem list_sum_cast (l : List Nat) :
    (l.map (fun c : Nat => (c : Rat))).sum = (l.sum : Rat) := by
  induction l with
  | nil => simp
  | cons a l ih =>
    simp only [List.map_cons, List.sum_cons, ih]
    exact (Nat.cast_add _ _).symm

/-- Conservation for block 4: on a nonempty table the market-share
percentages add up to exactly 100. -/
theorem porcentajes_cafe_sum (t : NormTable) (hne : t.rows ≠ []) :
    ((porcentajes_cafe t).map (fun p => p.2)).sum = 100 := by
  have hlen : t.rows.length ≠ 0 := fun h => hne (List.length_eq_zero.mp h)
  have hcast : ((t.rows.length : Nat) : Rat) ≠ 0 := by
    exact_mod_cast hlen
  rw [porcentajes_cafe, List.map_map]
  have hcomp : ((fun p => p.2) ∘ (fun p : String × Nat =>
      (p.1, (p.2 : Rat) / (t.rows.length : Rat) * 100)))
      = ((fun c : Rat => c / (t.rows.length : Rat) * 100)
          ∘ ((fun c : Nat => (c : Rat)) ∘ (fun p : String × Nat => p.2))) := rfl
  rw [hcomp, ← List.map_map, ← List.map_map, sum_map_div_mul, list_sum_cast,
    value_counts_sum, List.length_map, div_self hcast, one_mul]

/-- A month grouping lists exactly the twelve canonical months, in calendar
order. -/
theorem monthGroupSize_months (rows : List NormRow) :
    (monthGroupSize rows).map (fun e => e.month) = month_order := by
  simp [monthGroupSize, List.map_map, Function.comp_def]

theorem monthGroupSize_length (rows : List NormRow) :
    (monthGroupSize rows).length = 12 := by
  simp [monthGroupSize]
  rfl

/-- Each entry of a month grouping counts exactly the rows carrying that
month. -/
theorem monthGroupSize_ventas (rows : List NormRow) :
    ∀ e ∈ monthGroupSize rows,
      e.ventas = (rows.filter (fun r => r.monthName = some e.month)).length := by
  intro e he
  rcases List.mem_map.mp he with ⟨m, _, rfl⟩
  rfl

/-- Months with no qualifying rows get count zero. -/
theorem monthGroupSize_zero (rows : List NormRow) :
    ∀ e ∈ monthGroupSize rows,
      (∀ r ∈ rows, r.monthName ≠ some e.month) → e.ventas = 0 := by
  intro e he hno
  rw [monthGroupSize_ventas rows e he, List.length_eq_zero]
  apply List.filter_eq_nil_iff.mpr
  intro r hr
  simpa using hno r hr

theorem sales_by_day_money_ne_nil (t : NormTable) (hne : t.rows ≠ []) :
    sales_by_day_money t ≠ [] := by
  intro h
  have hlen : (sales_by_day_money t).length = 0 := by rw [h]; rfl
  rw [sales_by_day_money, List.length_insertionSort, List.length_map,
    weekday_groups, List.length_insertionSort] at hlen
  have h2 : firstKeys (t.rows.map wkey) = [] := List.length_eq_zero.mp hlen
  rw [firstKeys_eq_nil_iff] at h2
  exact hne (List.map_eq_nil_iff.mp h2)

/-- The block 1 output is sorted by the Weekdaysort column. -/
theorem sales_by_day_money_sorted (t : NormTable) :
    (sales_by_day_money t).Pairwise
      (fun a b => a.weekdaysort ≤ b.weekdaysort) :=
  List.sorted_insertionSort wLe _

/-- Number of entries of the block 5 table carrying a given weekday name:
one per distinct (name, sort) pair of the input with that name. -/
theorem sales_volume_by_weekday_name_count (t : NormTable) (w : String) :
    ((sales_volume_by_weekday t).filter (fun e => e.weekday = w)).length
      = ((firstKeys (t.rows.map wkey)).filter (fun k => k.1 = w)).length := by
  rw [← List.countP_eq_length_filter, ← List.countP_eq_length_filter,
    sales_volume_by_weekday]
  rw [(List.perm_insertionSort wLe _).countP_eq, List.countP_map, weekday_groups,
    (List.perm_insertionSort kLe _).countP_eq]
  rfl

/-- Same count statement for the block 1 table. -/
theorem sales_by_day_money_name_count (t : NormTable) (w : String) :
    ((sales_by_day_money t).filter (fun e => e.weekday = w)).length
      = ((firstKeys (t.rows.map wkey)).filter (fun k => k.1 = w)).length := by
  rw [← List.countP_eq_length_filter, ← List.countP_eq_length_filter,
    sales_by_day_money]
  rw [(List.perm_insertionSort wLe _).countP_eq, List.countP_map, weekday_groups,
    (List.perm_insertionSort kLe _).countP_eq]
  rfl

theorem filter_length_one {α : Type} (l : List α) (p : α → Bool) (a : α)
    (hnd : l.Nodup) (ha : a ∈ l) (hpa : p a = true)
    (huniq : ∀ x ∈ l, p x = true → x = a) :
    (l.filter p).length = 1 := by
  have h1 : a ∈ l.filter p := List.mem_filter.mpr ⟨ha, hpa⟩
  have hnd2 : (l.filter p).Nodup := hnd.filter p
  have hall : ∀ x ∈ l.filter p, x = a := fun x hx =>
    huniq x (List.mem_filter.mp hx).1 (List.mem_filter.mp hx).2
  cases hflt : l.filter p with
  | nil =>
    rw [hflt] at h1
    cases h1
  | cons y ys =>
    rw [hflt] at hall hnd2
    have hy : y = a := hall y (List.mem_cons_self _ _)
    cases ys with
    | nil => rfl
    | cons z zs =>
      have hz : z = a := hall z (by simp)
      rcases List.nodup_cons.mp hnd2 with ⟨hy2, _⟩
      exact absurd (by rw [hy, ← hz]; exact List.mem_cons_self _ _) hy2

theorem filter_length_lt {α : Type} (l : List α) (p : α → Bool) (a : α)
    (ha : a ∈ l) (hpa : p a = false) : (l.filter p).length < l.length := by
  induction l with
  | nil => cases ha
  | cons x xs ih =>
    rcases List.mem_cons.mp ha with rfl | ha2
    · simp only [List.filter_cons, hpa, List.length_cons, if_neg Bool.false_ne_true]
      exact Nat.lt_succ_of_le (List.length_filter_le _ _)
    · by_cases hx : p x = true
      · simp only [List.filter_cons, hx, List.length_cons, if_pos trivial, if_true]
        exact Nat.succ_lt_succ (ih ha2)
      · have hx2 : p x = false := by simpa using hx
        simp only [List.filter_cons, hx2, List.length_cons,
          if_neg Bool.false_ne_true]
        exact Nat.lt_succ_of_le (le_of_lt (ih ha2))

/-- C1: the specification says every aggregation is total in column absence
and that top_product_monthly_trend merely reports unavailable on a table
that has Coffee_Name but lacks Month_name.  The code violates this: the
unguarded subscript at app.py line 47 (whose except clause only catches
ValueError) raises an uncaught KeyError on such a table, as would the
groupby on Month_name at line 81, so the script aborts instead of degrading
to one unavailable aggregation. -/
theorem C1_missing_month_column_raises :
    runApp tableC1 = Except.error "KeyError: Month_name"
    ∧ tableC1.hasCoffeeName = true ∧ tableC1.hasMonthName = false :=
  ⟨rfl, rfl, rfl⟩

/-- C2: the specification says a zero-row table yields empty or zero-filled
aggregates, not-applicable peak facts, and no raised failure, naming the
peak lookups of revenue_by_weekday and top_product.  The code violates
this: on a zero-row table with all columns present, the unguarded idxmax at
app.py line 63 (and the one at line 75) raises ValueError and the script
aborts. -/
theorem C2_empty_table_raises :
    runApp tableC2 = Except.error "ValueError: attempt to get argmax of an empty sequence"
    ∧ tableC2.rows = [] :=
  ⟨rfl, rfl⟩

/-- C3 counterexample: the claim quantifies over every normalized table with
the required columns, but on the zero-row table the trend block raises from
the unguarded idxmax at app.py line 75 instead of returning a twelve-entry
table. -/
theorem C3_trend_empty_counterexample :
    block2 (normTable tableC3cex)
      = Except.error "ValueError: attempt to get argmax of an empty sequence"
    ∧ tableC3cex.hasCoffeeName = true ∧ tableC3cex.hasMonthName = true :=
  ⟨rfl, rfl, rfl⟩

/-- C3 amended: volume_by_month always returns exactly twelve entries, one
per canonical month in calendar order, counting exactly the qualifying rows
and zero for months without any; top_product_monthly_trend returns such a
table whenever the top product is determined, which on a zero-row table it
is not (the lookup raises instead). -/
theorem C3_twelve_month_entries (t : Table) :
    ((sales_volume_by_month (normTable t)).map (fun e => e.month) = month_order
      ∧ (sales_volume_by_month (normTable t)).length = 12
      ∧ ∀ e ∈ sales_volume_by_month (normTable t),
          e.ventas = ((normTable t).rows.filter
            (fun r => r.monthName = some e.month)).length
          ∧ ((∀ r ∈ (normTable t).rows, r.monthName ≠ some e.month) →
              e.ventas = 0))
    ∧ (∀ top, cafe_mas_vendido (normTable t) = Except.ok top →
        (ventas_estrella_tbl (normTable t) top).map (fun e => e.month) = month_order
        ∧ (ventas_estrella_tbl (normTable t) top).length = 12
        ∧ ∀ e ∈ ventas_estrella_tbl (normTable t) top,
            e.ventas = (((normTable t).rows.filter
              (fun r => r.coffeeName = top)).filter
                (fun r => r.monthName = some e.month)).length
            ∧ ((∀ r ∈ (normTable t).rows.filter (fun r => r.coffeeName = top),
                  r.monthName ≠ some e.month) → e.ventas = 0)) := by
  constructor
  · refine ⟨monthGroupSize_months _, monthGroupSize_length _, fun e he => ?_⟩
    exact ⟨monthGroupSize_ventas _ e he, monthGroupSize_zero _ e he⟩
  · intro top _
    refine ⟨monthGroupSize_months _, monthGroupSize_length _, fun e he => ?_⟩
    exact ⟨monthGroupSize_ventas _ e he, monthGroupSize_zero _ e he⟩

/-- C3 witness: on a concrete one-row table the top product is Latte and
both calendar-complete tables have twelve entries. -/
theorem C3_twelve_month_entries_witness :
    (sales_volume_by_month (normTable tableC3wit)).length = 12
    ∧ cafe_mas_vendido (normTable tableC3wit) = Except.ok "Latte"
    ∧ (ventas_estrella_tbl (normTable tableC3wit) "Latte").length = 12 :=
  ⟨(C3_twelve_month_entries tableC3wit).1.2.1, rfl,
    ((C3_twelve_month_entries tableC3wit).2 "Latte" rfl).2.1⟩

/-- An idxmax lookup splits its series into a strict prefix of values below
the maximum, the first maximum achiever, and a remainder: the returned label
is the first one attaining the maximum in the series order. -/
theorem idxmaxBy_first_split {α β : Type} [LinearOrder β] (f : α → β) :
    ∀ (l : List α) (m : α), idxmaxBy f l = some m →
      ∃ l1 l2, l = l1 ++ m :: l2 ∧ ∀ x ∈ l1, f x < f m := by
  intro l
  induction l with
  | nil => intro m h; simp [idxmaxBy] at h
  | cons a as ih =>
    intro m h
    cases hh : idxmaxBy f as with
    | none =>
      rw [idxmaxBy_cons_none f a hh] at h
      cases h
      exact ⟨[], as, rfl, by simp⟩
    | some m0 =>
      rw [idxmaxBy_cons_some f a hh] at h
      by_cases hc : f a < f m0
      · rw [if_pos hc] at h
        cases h
        rcases ih m hh with ⟨l1, l2, heq, hlt⟩
        refine ⟨a :: l1, l2, by rw [heq]; rfl, ?_⟩
        intro x hx
        rcases List.mem_cons.mp hx with rfl | hx2
        · exact hc
        · exact hlt x hx2
      · rw [if_neg hc] at h
        cases h
        exact ⟨[], as, rfl, by simp⟩

/-- Packaged idxmax behaviour on a nonempty series: some first maximum
achiever is returned and it dominates the whole series. -/
theorem idxmax_spec {α β : Type} [LinearOrder β] (f : α → β) (l : List α)
    (hne : l ≠ []) :
    ∃ e, idxmaxBy f l = some e
      ∧ (∃ l1 l2, l = l1 ++ e :: l2 ∧ ∀ x ∈ l1, f x < f e)
      ∧ (∀ x ∈ l, f x ≤ f e) := by
  cases hidx : idxmaxBy f l with
  | none => exact absurd ((idxmaxBy_eq_none_iff f l).mp hidx) hne
  | some e =>
    exact ⟨e, rfl, idxmaxBy_first_split f l e hidx, idxmaxBy_le f l e hidx⟩

theorem sales_volume_by_weekday_ne_nil (t : NormTable) (hne : t.rows ≠ []) :
    sales_volume_by_weekday t ≠ [] := by
  intro h
  have hlen : (sales_volume_by_weekday t).length = 0 := by rw [h]; rfl
  rw [sales_volume_by_weekday, List.length_insertionSort, List.length_map,
    weekday_groups, List.length_insertionSort] at hlen
  have h2 : firstKeys (t.rows.map wkey) = [] := List.length_eq_zero.mp hlen
  rw [firstKeys_eq_nil_iff] at h2
  exact hne (List.map_eq_nil_iff.mp h2)

theorem sales_by_hour_ne_nil (t : NormTable) (hne : t.rows ≠ []) :
    sales_by_hour_tbl t ≠ [] := by
  intro h
  have hlen : (sales_by_hour_tbl t).length = 0 := by rw [h]; rfl
  rw [sales_by_hour_tbl, List.length_insertionSort, List.length_map] at hlen
  have h2 : firstKeys (t.rows.map (fun r => r.hourOfDay)) = [] :=
    List.length_eq_zero.mp hlen
  rw [firstKeys_eq_nil_iff] at h2
  exact hne (List.map_eq_nil_iff.mp h2)

theorem value_counts_ne_nil (xs : List String) (hne : xs ≠ []) :
    value_counts xs ≠ [] := by
  intro h
  have hlen : (value_counts xs).length = 0 := by rw [h]; rfl
  rw [value_counts, List.length_insertionSort, List.length_map,
    List.length_eq_zero, firstKeys_eq_nil_iff] at hlen
  exact hne hlen

theorem porcentajes_cafe_ne_nil (t : NormTable) (hne : t.rows ≠ []) :
    porcentajes_cafe t ≠ [] := by
  intro h
  rw [porcentajes_cafe] at h
  exact value_counts_ne_nil _ (fun h2 => hne (List.map_eq_nil_iff.mp h2))
    (List.map_eq_nil_iff.mp h)

theorem sales_volume_by_month_ne_nil (t : NormTable) :
    sales_volume_by_month t ≠ [] := by
  intro h
  have h12 := monthGroupSize_length t.rows
  rw [sales_volume_by_month] at h
  rw [h] at h12
  simp at h12

theorem ventas_estrella_tbl_ne_nil (t : NormTable) (top : String) :
    ventas_estrella_tbl t top ≠ [] := by
  intro h
  have h12 := monthGroupSize_length (t.rows.filter (fun r => r.coffeeName = top))
  rw [ventas_estrella_tbl] at h
  rw [h] at h12
  simp at h12

/-- The block 5 output is sorted by the Weekdaysort column. -/
theorem sales_volume_by_weekday_sorted (t : NormTable) :
    (sales_volume_by_weekday t).Pairwise
      (fun a b => a.weekdaysort ≤ b.weekdaysort) :=
  List.sorted_insertionSort wLe _

/-- The block 3 output is sorted by ascending hour. -/
theorem sales_by_hour_sorted (t : NormTable) :
    (sales_by_hour_tbl t).Pairwise (fun a b => a.1 ≤ b.1) :=
  List.sorted_insertionSort hLe _

/-- C4: for each of the seven aggregations, the peak selection is the first
grouping key achieving the maximum measure under that aggregate table's
stated output order (the list order of the table: ascending Weekdaysort for
the weekday tables, ascending hour, canonical month order for the month
tables, descending count or share for the product rankings), witnessed by a
split of the table at the first maximum achiever; in particular for the
weekday and hour tables the reported key is minimal in sort key or hour
among all achievers, so two weekdays tied at the maximal revenue resolve to
the smaller Weekdaysort. -/
theorem C4_peak_is_first_max (t : Table) :
    (t.rows ≠ [] → ∃ e : WEntry Rat,
      idxmaxBy (fun x => x.measure) (sales_by_day_money (normTable t)) = some e
      ∧ dia_pico_ingresos (normTable t) = Except.ok e.weekday
      ∧ (∃ l1 l2, sales_by_day_money (normTable t) = l1 ++ e :: l2
          ∧ ∀ x ∈ l1, x.measure < e.measure)
      ∧ (∀ x ∈ sales_by_day_money (normTable t), x.measure ≤ e.measure)
      ∧ (∀ x ∈ sales_by_day_money (normTable t),
          x.measure = e.measure → e.weekdaysort ≤ x.weekdaysort))
    ∧ (t.rows ≠ [] → t.hasWeekday = true → t.hasWeekdaySort = true →
      ∃ e : WEntry Nat,
      idxmaxBy (fun x => x.measure) (sales_volume_by_weekday (normTable t)) = some e
      ∧ (block5 (normTable t)).2 = some e.weekday
      ∧ (∃ l1 l2, sales_volume_by_weekday (normTable t) = l1 ++ e :: l2
          ∧ ∀ x ∈ l1, x.measure < e.measure)
      ∧ (∀ x ∈ sales_volume_by_weekday (normTable t), x.measure ≤ e.measure)
      ∧ (∀ x ∈ sales_volume_by_weekday (normTable t),
          x.measure = e.measure → e.weekdaysort ≤ x.weekdaysort))
    ∧ (t.rows ≠ [] → t.hasHourOfDay = true → ∃ p : Int × Nat,
      idxmaxBy (fun x => x.2) (sales_by_hour_tbl (normTable t)) = some p
      ∧ (block3 (normTable t)).2.1 = some p.1
      ∧ (∃ l1 l2, sales_by_hour_tbl (normTable t) = l1 ++ p :: l2
          ∧ ∀ x ∈ l1, x.2 < p.2)
      ∧ (∀ x ∈ sales_by_hour_tbl (normTable t), x.2 ≤ p.2)
      ∧ (∀ x ∈ sales_by_hour_tbl (normTable t), x.2 = p.2 → p.1 ≤ x.1))
    ∧ (t.hasMonthName = true → ∃ e : MonthCount,
      idxmaxBy (fun x => x.ventas) (sales_volume_by_month (normTable t)) = some e
      ∧ (block6 (normTable t)).2.1 = some e.month
      ∧ (∃ l1 l2, sales_volume_by_month (normTable t) = l1 ++ e :: l2
          ∧ ∀ x ∈ l1, x.ventas < e.ventas)
      ∧ (∀ x ∈ sales_volume_by_month (normTable t), x.ventas ≤ e.ventas))
    ∧ (t.rows ≠ [] → ∃ p : String × Nat,
      idxmaxBy (fun x => x.2)
        (value_counts ((normTable t).rows.map (fun r => r.coffeeName))) = some p
      ∧ cafe_mas_vendido (normTable t) = Except.ok p.1
      ∧ (∃ l1 l2, value_counts ((normTable t).rows.map (fun r => r.coffeeName))
            = l1 ++ p :: l2 ∧ ∀ x ∈ l1, x.2 < p.2)
      ∧ (∀ x ∈ value_counts ((normTable t).rows.map (fun r => r.coffeeName)),
          x.2 ≤ p.2))
    ∧ (t.rows ≠ [] → t.hasCoffeeName = true → t.hasMonthName = true →
      ∃ top, ∃ e : MonthCount,
      cafe_mas_vendido (normTable t) = Except.ok top
      ∧ idxmaxBy (fun x => x.ventas) (ventas_estrella_tbl (normTable t) top) = some e
      ∧ block2 (normTable t) = Except.ok (some top,
          some (ventas_estrella_tbl (normTable t) top), some e.month,
          seriesMaxNat ((ventas_estrella_tbl (normTable t) top).map
            (fun q => q.ventas)))
      ∧ (∃ l1 l2, ventas_estrella_tbl (normTable t) top = l1 ++ e :: l2
          ∧ ∀ x ∈ l1, x.ventas < e.ventas)
      ∧ (∀ x ∈ ventas_estrella_tbl (normTable t) top, x.ventas ≤ e.ventas))
    ∧ (t.rows ≠ [] → t.hasCoffeeName = true → ∃ p : String × Rat,
      idxmaxBy (fun x => x.2) (porcentajes_cafe (normTable t)) = some p
      ∧ (block4 (normTable t)).2.1 = some p.1
      ∧ (∃ l1 l2, porcentajes_cafe (normTable t) = l1 ++ p :: l2
          ∧ ∀ x ∈ l1, x.2 < p.2)
      ∧ (∀ x ∈ porcentajes_cafe (normTable t), x.2 ≤ p.2)) := by
  have hrows : t.rows ≠ [] → (normTable t).rows ≠ [] :=
    fun hne h => hne (List.map_eq_nil_iff.mp h)
  refine ⟨?_, ?_, ?_, ?_, ?_, ?_, ?_⟩
  · intro hne
    obtain ⟨e, hidx, hsplit, hle⟩ := idxmax_spec (fun x : WEntry Rat => x.measure)
      _ (sales_by_day_money_ne_nil _ (hrows hne))
    refine ⟨e, hidx, ?_, hsplit, hle, ?_⟩
    · simp [dia_pico_ingresos, hidx]
    · intro x hx hxe
      exact idxmaxBy_first (fun y => y.measure) (fun y => y.weekdaysort) _
        (sales_by_day_money_sorted _) e hidx x hx (le_of_eq hxe.symm)
  · intro hne hw hws
    obtain ⟨e, hidx, hsplit, hle⟩ := idxmax_spec (fun x : WEntry Nat => x.measure)
      _ (sales_volume_by_weekday_ne_nil _ (hrows hne))
    have hw' : (normTable t).hasWeekday = true := hw
    have hws' : (normTable t).hasWeekdaySort = true := hws
    refine ⟨e, hidx, ?_, hsplit, hle, ?_⟩
    · simp [block5, hw', hws', hidx]
    · intro x hx hxe
      exact idxmaxBy_first (fun y => y.measure) (fun y => y.weekdaysort) _
        (sales_volume_by_weekday_sorted _) e hidx x hx (le_of_eq hxe.symm)
  · intro hne hh
    obtain ⟨p, hidx, hsplit, hle⟩ := idxmax_spec (fun x : Int × Nat => x.2)
      _ (sales_by_hour_ne_nil _ (hrows hne))
    have hh' : (normTable t).hasHourOfDay = true := hh
    refine ⟨p, hidx, ?_, hsplit, hle, ?_⟩
    · simp [block3, hh', hidx]
    · intro x hx hxe
      exact idxmaxBy_first (fun y : Int × Nat => y.2) (fun y : Int × Nat => y.1) _
        (sales_by_hour_sorted _) p hidx x hx (le_of_eq hxe.symm)
  · intro hm
    obtain ⟨e, hidx, hsplit, hle⟩ := idxmax_spec (fun x : MonthCount => x.ventas)
      _ (sales_volume_by_month_ne_nil (normTable t))
    have hm' : (normTable t).hasMonthName = true := hm
    refine ⟨e, hidx, ?_, hsplit, hle⟩
    simp [block6, hm', hidx]
  · intro hne
    obtain ⟨p, hidx, hsplit, hle⟩ := idxmax_spec (fun x : String × Nat => x.2)
      _ (value_counts_ne_nil ((normTable t).rows.map (fun r => r.coffeeName))
        (fun h => hrows hne (List.map_eq_nil_iff.mp h)))
    refine ⟨p, hidx, ?_, hsplit, hle⟩
    simp [cafe_mas_vendido, hidx]
  · intro hne hc hm
    obtain ⟨p, hvc, hsplitp, hlep⟩ := idxmax_spec (fun x : String × Nat => x.2)
      _ (value_counts_ne_nil ((normTable t).rows.map (fun r => r.coffeeName))
        (fun h => hrows hne (List.map_eq_nil_iff.mp h)))
    obtain ⟨e, hidx, hsplit, hle⟩ := idxmax_spec (fun x : MonthCount => x.ventas)
      _ (ventas_estrella_tbl_ne_nil (normTable t) p.1)
    have hc' : (normTable t).hasCoffeeName = true := hc
    have hm' : (normTable t).hasMonthName = true := hm
    refine ⟨p.1, e, ?_, hidx, ?_, hsplit, hle⟩
    · simp [cafe_mas_vendido, hvc]
    · simp [block2, hc', hm', hvc, hidx]
  · intro hne hc
    obtain ⟨p, hidx, hsplit, hle⟩ := idxmax_spec (fun x : String × Rat => x.2)
      _ (porcentajes_cafe_ne_nil _ (hrows hne))
    have hc' : (normTable t).hasCoffeeName = true := hc
    refine ⟨p, hidx, ?_, hsplit, hle⟩
    simp [block4, hc', hidx]

/-- C4 witness: application at a concrete two-row table (all columns
present, two weekdays of equal revenue), discharging the nonemptiness and
column hypotheses of all seven parts. -/
theorem C4_peak_is_first_max_witness :
    (∃ e : WEntry Rat,
      idxmaxBy (fun x => x.measure) (sales_by_day_money (normTable tableC4wit)) = some e
      ∧ dia_pico_ingresos (normTable tableC4wit) = Except.ok e.weekday
      ∧ (∃ l1 l2, sales_by_day_money (normTable tableC4wit) = l1 ++ e :: l2
          ∧ ∀ x ∈ l1, x.measure < e.measure)
      ∧ (∀ x ∈ sales_by_day_money (normTable tableC4wit), x.measure ≤ e.measure)
      ∧ (∀ x ∈ sales_by_day_money (normTable tableC4wit),
          x.measure = e.measure → e.weekdaysort ≤ x.weekdaysort))
    ∧ (∃ e : WEntry Nat,
      idxmaxBy (fun x => x.measure)
        (sales_volume_by_weekday (normTable tableC4wit)) = some e
      ∧ (block5 (normTable tableC4wit)).2 = some e.weekday
      ∧ (∃ l1 l2, sales_volume_by_weekday (normTable tableC4wit) = l1 ++ e :: l2
          ∧ ∀ x ∈ l1, x.measure < e.measure)
      ∧ (∀ x ∈ sales_volume_by_weekday (normTable tableC4wit),
          x.measure ≤ e.measure)
      ∧ (∀ x ∈ sales_volume_by_weekday (normTable tableC4wit),
          x.measure = e.measure → e.weekdaysort ≤ x.weekdaysort))
    ∧ (∃ p : Int × Nat,
      idxmaxBy (fun x => x.2) (sales_by_hour_tbl (normTable tableC4wit)) = some p
      ∧ (block3 (normTable tableC4wit)).2.1 = some p.1
      ∧ (∃ l1 l2, sales_by_hour_tbl (normTable tableC4wit) = l1 ++ p :: l2
          ∧ ∀ x ∈ l1, x.2 < p.2)
      ∧ (∀ x ∈ sales_by_hour_tbl (normTable tableC4wit), x.2 ≤ p.2)
      ∧ (∀ x ∈ sales_by_hour_tbl (normTable tableC4wit), x.2 = p.2 → p.1 ≤ x.1))
    ∧ (∃ e : MonthCount,
      idxmaxBy (fun x => x.ventas)
        (sales_volume_by_month (normTable tableC4wit)) = some e
      ∧ (block6 (normTable tableC4wit)).2.1 = some e.month
      ∧ (∃ l1 l2, sales_volume_by_month (normTable tableC4wit) = l1 ++ e :: l2
          ∧ ∀ x ∈ l1, x.ventas < e.ventas)
      ∧ (∀ x ∈ sales_volume_by_month (normTable tableC4wit), x.ventas ≤ e.ventas))
    ∧ (∃ p : String × Nat,
      idxmaxBy (fun x => x.2)
        (value_counts ((normTable tableC4wit).rows.map (fun r => r.coffeeName)))
          = some p
      ∧ cafe_mas_vendido (normTable tableC4wit) = Except.ok p.1
      ∧ (∃ l1 l2, value_counts
            ((normTable tableC4wit).rows.map (fun r => r.coffeeName))
            = l1 ++ p :: l2 ∧ ∀ x ∈ l1, x.2 < p.2)
      ∧ (∀ x ∈ value_counts
            ((normTable tableC4wit).rows.map (fun r => r.coffeeName)),
          x.2 ≤ p.2))
    ∧ (∃ top, ∃ e : MonthCount,
      cafe_mas_vendido (normTable tableC4wit) = Except.ok top
      ∧ idxmaxBy (fun x => x.ventas)
          (ventas_estrella_tbl (normTable tableC4wit) top) = some e
      ∧ block2 (normTable tableC4wit) = Except.ok (some top,
          some (ventas_estrella_tbl (normTable tableC4wit) top), some e.month,
          seriesMaxNat ((ventas_estrella_tbl (normTable tableC4wit) top).map
            (fun q => q.ventas)))
      ∧ (∃ l1 l2, ventas_estrella_tbl (normTable tableC4wit) top = l1 ++ e :: l2
          ∧ ∀ x ∈ l1, x.ventas < e.ventas)
      ∧ (∀ x ∈ ventas_estrella_tbl (normTable tableC4wit) top,
          x.ventas ≤ e.ventas))
    ∧ (∃ p : String × Rat,
      idxmaxBy (fun x => x.2) (porcentajes_cafe (normTable tableC4wit)) = some p
      ∧ (block4 (normTable tableC4wit)).2.1 = some p.1
      ∧ (∃ l1 l2, porcentajes_cafe (normTable tableC4wit) = l1 ++ p :: l2
          ∧ ∀ x ∈ l1, x.2 < p.2)
      ∧ (∀ x ∈ porcentajes_cafe (normTable tableC4wit), x.2 ≤ p.2)) := by
  have h := C4_peak_is_first_max tableC4wit
  exact ⟨h.1 (by decide), h.2.1 (by decide) rfl rfl, h.2.2.1 (by decide) rfl,
    h.2.2.2.1 rfl, h.2.2.2.2.1 (by decide), h.2.2.2.2.2.1 (by decide) rfl rfl,
    h.2.2.2.2.2.2 (by decide) rfl⟩

/-- C5: for every normalized table the measure column of each aggregate
table adds up to the size (or total revenue) of the filtered input subset
that aggregation uses: summed Money for block 1, row counts for blocks 5, 6
and 3, the value_counts underlying blocks 2 and 4, 100 percent of a
nonempty table for the shares, and the top-product subset for the trend. -/
theorem C5_measure_conservation (t : Table) :
    ((sales_by_day_money (normTable t)).map (fun e => e.measure)).sum
        = ((normTable t).rows.map (fun r => r.money)).sum
    ∧ ((sales_volume_by_weekday (normTable t)).map (fun e => e.measure)).sum
        = (normTable t).rows.length
    ∧ ((sales_volume_by_month (normTable t)).map (fun e => e.ventas)).sum
        = ((normTable t).rows.filter (fun r => r.monthName.isSome)).length
    ∧ ((sales_by_hour_tbl (normTable t)).map (fun p => p.2)).sum
        = (normTable t).rows.length
    ∧ ((value_counts ((normTable t).rows.map (fun r => r.coffeeName))).map
        (fun p => p.2)).sum = (normTable t).rows.length
    ∧ (t.rows ≠ [] →
        ((porcentajes_cafe (normTable t)).map (fun p => p.2)).sum = 100)
    ∧ (∀ top, cafe_mas_vendido (normTable t) = Except.ok top →
        ((ventas_estrella_tbl (normTable t) top).map (fun e => e.ventas)).sum
          = ((normTable t).rows.filter
              (fun r => r.monthName.isSome && r.coffeeName = top)).length) := by
  refine ⟨sales_by_day_money_sum _, sales_volume_by_weekday_sum _,
    sales_volume_by_month_sum t, sales_by_hour_sum _, ?_, ?_, ?_⟩
  · have h := value_counts_sum ((normTable t).rows.map (fun r => r.coffeeName))
    rwa [List.length_map] at h
  · intro hne
    apply porcentajes_cafe_sum
    intro h
    exact hne (List.map_eq_nil_iff.mp h)
  · intro top _
    exact ventas_estrella_tbl_sum t top

/-- C5 witness: application at the concrete three-row scenario table, with
the nonemptiness and top-product hypotheses discharged. -/
theorem C5_measure_conservation_witness :
    (((porcentajes_cafe (normTable tableC5wit)).map (fun p => p.2)).sum = 100)
    ∧ (((ventas_estrella_tbl (normTable tableC5wit) "Latte").map
          (fun e => e.ventas)).sum
        = ((normTable tableC5wit).rows.filter
            (fun r => r.monthName.isSome && r.coffeeName = "Latte")).length) :=
  ⟨(C5_measure_conservation tableC5wit).2.2.2.2.2.1 (by decide),
    (C5_measure_conservation tableC5wit).2.2.2.2.2.2 "Latte" rfl⟩

/-- C6 counterexample: on a table whose Month_name column holds Foobar, a
value outside the vocabulary, the normalizer reports no warning (warned is
false), contrary to the claim that such values are flagged and a warning is
reported to the caller. -/
theorem C6_no_warning_counterexample :
    normalize tableC6cex
      = Except.ok { table := normTable tableC6cex, warned := false }
    ∧ "Foobar" ∈ tableC6cex.rows.map Row.monthName
    ∧ "Foobar" ∉ month_order :=
  ⟨rfl, by decide, by decide⟩

/-- C6 amended: out-of-vocabulary Month_name values are silently replaced by
null with no warning reported (the except clause only catches ValueError,
which the Categorical conversion never raises), and processing continues
with the affected rows kept in the table. -/
theorem C6_silent_nan (t : Table) (hM : t.hasMonthName = true) :
    normalize t = Except.ok { table := normTable t, warned := false }
    ∧ (normTable t).rows.length = t.rows.length
    ∧ ∀ r ∈ t.rows, r.monthName ∉ month_order → (normRow r).monthName = none := by
  refine ⟨?_, ?_, ?_⟩
  · simp [normalize, hM]
  · simp [normTable]
  · intro r _ hm
    simp [normRow, normalizeMonth, hm]

/-- C6 witness: application at a table holding one out-of-vocabulary month
next to a canonical one. -/
theorem C6_silent_nan_witness :
    normalize tableC6wit
      = Except.ok { table := normTable tableC6wit, warned := false }
    ∧ (normTable tableC6wit).rows.length = tableC6wit.rows.length
    ∧ (normRow rowC6bad).monthName = none := by
  have h := C6_silent_nan tableC6wit rfl
  exact ⟨h.1, h.2.1, h.2.2 rowC6bad (by decide) (by decide)⟩

/-- C7: on the Coffee_Name scenario Latte, Latte, Espresso the share table
is Latte with 200/3 percent (66.7 rendered to one decimal) followed by
Espresso with 100/3 percent (33.3), ranked descending, and the top product
is Latte. -/
theorem C7_product_share_scenario :
    porcentajes_cafe (normTable tableC7)
      = [("Latte", (200 : Rat)/3), ("Espresso", (100 : Rat)/3)]
    ∧ cafe_mas_vendido (normTable tableC7) = Except.ok "Latte"
    ∧ (block4 (normTable tableC7)).2.1 = some "Latte" := by
  have hvc : value_counts ((normTable tableC7).rows.map (fun r => r.coffeeName))
      = [("Latte", 2), ("Espresso", 1)] := rfl
  have hlen : (normTable tableC7).rows.length = 3 := rfl
  have hshare : porcentajes_cafe (normTable tableC7)
      = [("Latte", (200 : Rat)/3), ("Espresso", (100 : Rat)/3)] := by
    rw [porcentajes_cafe, hvc]
    simp only [hlen, List.map_cons, List.map_nil]
    norm_num
  refine ⟨hshare, rfl, ?_⟩
  have hcof : (normTable tableC7).hasCoffeeName = true := rfl
  have h1 : idxmaxBy (fun p : String × Rat => p.2) [("Espresso", (100 : Rat)/3)]
      = some ("Espresso", (100 : Rat)/3) := idxmaxBy_cons_none _ _ rfl
  have h2 : idxmaxBy (fun p : String × Rat => p.2)
      [("Latte", (200 : Rat)/3), ("Espresso", (100 : Rat)/3)]
      = some ("Latte", (200 : Rat)/3) := by
    rw [idxmaxBy_cons_some _ _ h1]
    norm_num
  simp only [block4, hcof, hshare, h2, if_true]

/-- C8: the seven aggregations are pure functions of the normalized table;
running the whole pipeline twice on the same input yields identical
aggregate tables and peak facts. -/
theorem C8_pipeline_deterministic (t : Table) :
    (runTwice t).1 = (runTwice t).2 := rfl

/-- C9: a row whose Month_name value is outside the canonical vocabulary is
normalized to null and therefore excluded from the counts of volume_by_month
and of the monthly trend (whose totals only cover rows with a non-null
month, and fall strictly short of the row count), while the same row still
counts in the weekday, hour and product aggregations, whose totals equal the
full row count. -/
theorem C9_bad_month_row_excluded (t : Table) (r : Row) (hr : r ∈ t.rows)
    (hm : r.monthName ∉ month_order) :
    (normRow r).monthName = none
    ∧ ((sales_volume_by_month (normTable t)).map (fun e => e.ventas)).sum
        = ((normTable t).rows.filter (fun x => x.monthName.isSome)).length
    ∧ ((sales_volume_by_month (normTable t)).map (fun e => e.ventas)).sum
        < t.rows.length
    ∧ ((sales_volume_by_weekday (normTable t)).map (fun e => e.measure)).sum
        = t.rows.length
    ∧ ((sales_by_hour_tbl (normTable t)).map (fun p => p.2)).sum = t.rows.length
    ∧ ((value_counts ((normTable t).rows.map (fun x => x.coffeeName))).map
        (fun p => p.2)).sum = t.rows.length
    ∧ ∀ top, ((ventas_estrella_tbl (normTable t) top).map (fun e => e.ventas)).sum
        = ((normTable t).rows.filter
            (fun x => x.monthName.isSome && x.coffeeName = top)).length := by
  have hnone : (normRow r).monthName = none := by
    simp [normRow, normalizeMonth, hm]
  have hlen : (normTable t).rows.length = t.rows.length := by
    simp [normTable]
  refine ⟨hnone, sales_volume_by_month_sum t, ?_, ?_, ?_, ?_,
    fun top => ventas_estrella_tbl_sum t top⟩
  · rw [sales_volume_by_month_sum t, ← hlen]
    apply filter_length_lt _ _ (normRow r)
    · exact List.mem_map_of_mem normRow hr
    · simp [hnone]
  · rw [sales_volume_by_weekday_sum, hlen]
  · rw [sales_by_hour_sum, hlen]
  · rw [value_counts_sum, List.length_map, hlen]

/-- C9 witness: application at a concrete table holding a Smarch row next to
a January row. -/
theorem C9_bad_month_row_excluded_witness :
    (normRow rowC9bad).monthName = none
    ∧ ((sales_volume_by_month (normTable tableC9wit)).map (fun e => e.ventas)).sum
        < tableC9wit.rows.length := by
  have h := C9_bad_month_row_excluded tableC9wit rowC9bad (by decide) (by decide)
  exact ⟨h.1, h.2.2.1⟩

/-- C10: both weekday blocks group by the pair (Weekday, Weekdaysort).
Under the invariant that each weekday name carries exactly one sort key,
every name present in the input yields exactly one output entry; the
concrete table pairing Monday with sort keys 1 and 2 yields two output
entries named Monday. -/
theorem C10_pair_grouping :
    (∀ t : Table,
      (∀ r1 ∈ t.rows, ∀ r2 ∈ t.rows,
        r1.weekday = r2.weekday → r1.weekdaysort = r2.weekdaysort) →
      ∀ w ∈ t.rows.map (fun r => r.weekday),
        ((sales_volume_by_weekday (normTable t)).filter
            (fun e => e.weekday = w)).length = 1
        ∧ ((sales_by_day_money (normTable t)).filter
            (fun e => e.weekday = w)).length = 1)
    ∧ ((sales_volume_by_weekday (normTable tableC10bad)).filter
        (fun e => e.weekday = "Monday")).length = 2 := by
  constructor
  · intro t hinv w hw
    rcases List.mem_map.mp hw with ⟨r0, hr0, rfl⟩
    have hkey : ((firstKeys ((normTable t).rows.map wkey)).filter
        (fun k => k.1 = r0.weekday)).length = 1 := by
      apply filter_length_one _ _ (wkey (normRow r0))
      · exact nodup_firstKeys _
      · exact (mem_firstKeys _ _).mpr
          (List.mem_map_of_mem wkey (List.mem_map_of_mem normRow hr0))
      · simp [wkey, normRow]
      · intro x hx hpx
        rcases List.mem_map.mp ((mem_firstKeys _ _).mp hx) with ⟨rn, hrn, rfl⟩
        rcases List.mem_map.mp hrn with ⟨r1, hr1, rfl⟩
        have hweq : r1.weekday = r0.weekday := by
          simpa [wkey, normRow] using hpx
        have hseq := hinv r1 hr1 r0 hr0 hweq
        simp [wkey, normRow, hweq, hseq]
    exact ⟨by rw [sales_volume_by_weekday_name_count]; exact hkey,
      by rw [sales_by_day_money_name_count]; exact hkey⟩
  · decide

/-- C10 witness: application of the invariant case at a concrete three-row
table where Monday appears twice under one sort key. -/
theorem C10_pair_grouping_witness :
    ((sales_volume_by_weekday (normTable tableC10wit)).filter
        (fun e => e.weekday = "Monday")).length = 1
    ∧ ((sales_by_day_money (normTable tableC10wit)).filter
        (fun e => e.weekday = "Monday")).length = 1 :=
  C10_pair_grouping.1 tableC10wit (by decide) "Monday" (by decide)

end Coffee
